import Mathlib

set_option linter.unusedVariables false

/-!
Verification of the game-services room subsystem: a shallow embedding in
Lean 4 of the room lifecycle orchestrator (internal/service/game/room.go and
the game ProcessService), the PostgreSQL room/membership repositories, the
Redis cache/lock repositories (internal/repository/redis, pkg/cache) and the
websocket connection hub. State is passed explicitly; machine time is a Nat
of seconds; the random room code and the outcome of fallible external calls
that the Go code branches on are passed as parameters.
-/

namespace GameServices

/-- error taxonomy codes, from internal/utils (ErrCodeInternal, ErrCodeNotFound, ...). -/
inductive ErrCode where
  | internal
  | invalidInput
  | notFound
  | unauthorized
  | forbidden
  | conflict
  deriving DecidableEq, Repr

/-- result of a Go service call: a value, or an error carrying a taxonomy code. -/
inductive GoResult (α : Type) where
  | ok (a : α)
  | err (e : ErrCode)
  deriving DecidableEq, Repr

/-! ## Redis cache model (pkg/cache/cache.go primitives)

A key maps to a value (string, hash or set) together with an optional
absolute expiry instant.  An entry whose expiry is ≤ now is treated as
absent by every primitive, matching Redis lazy expiry. -/

/-- a Redis value: plain string, hash, or set. -/
inductive CacheVal where
  | str (s : String)
  | hash (fields : List (String × String))
  | set (members : List String)
  deriving DecidableEq, Repr

/-- a stored cache entry: value plus optional absolute expiry instant. -/
structure CacheEntry where
  val : CacheVal
  expiresAt : Option Nat
  deriving DecidableEq, Repr

/-- the whole cache keyspace, as an association list. -/
structure Cache where
  entries : List (String × CacheEntry)
  deriving DecidableEq, Repr

/-- an entry is live at `now` when it has no expiry or its expiry is in the future. -/
def CacheEntry.live (e : CacheEntry) (now : Nat) : Bool :=
  match e.expiresAt with
  | none => true
  | some t => now < t

/-- raw association-list lookup, ignoring expiry. -/
def cacheLookupRaw (c : Cache) (key : String) : Option CacheEntry :=
  (c.entries.find? (fun p => p.1 == key)).map (fun p => p.2)

/-- lookup as Redis sees it at time `now`: expired entries are absent. -/
def cacheLookup (c : Cache) (now : Nat) (key : String) : Option CacheEntry :=
  match cacheLookupRaw c key with
  | none => none
  | some e => if e.live now then some e else none

/-- store an entry under a key, replacing any previous entry for that key. -/
def cacheSet (c : Cache) (key : String) (e : CacheEntry) : Cache :=
  ⟨(key, e) :: c.entries.filter (fun p => p.1 != key)⟩

/-- Client.Del: remove every listed key. -/
def cacheDel (c : Cache) (keys : List String) : Cache :=
  ⟨c.entries.filter (fun p => !(keys.contains p.1))⟩

/-- Client.SetNX: set key to a string value with TTL only if the key is absent
(dead entries count as absent); returns whether the set happened.  A zero
`ttl` means no expiry, as in Redis. -/
def SetNX (c : Cache) (now : Nat) (key value : String) (ttl : Nat) : Bool × Cache :=
  match cacheLookup c now key with
  | some _ => (false, c)
  | none => (true, cacheSet c key ⟨.str value, if ttl = 0 then none else some (now + ttl)⟩)

/-- set one hash field, overriding an existing field of the same name. -/
def hashInsert (h : List (String × String)) (kv : String × String) : List (String × String) :=
  if h.any (fun p => p.1 == kv.1) then
    h.map (fun p => if p.1 == kv.1 then kv else p)
  else
    h ++ [kv]

/-- set a batch of hash fields in order. -/
def hashSetFields (h : List (String × String)) (fields : List (String × String)) :
    List (String × String) :=
  fields.foldl hashInsert h

/-- Client.HSet: merge fields into the hash at `key`.  On a fresh (or expired)
key this creates a persistent hash entry with no expiry, exactly as Redis
HSET does; an existing hash keeps its expiry.  A live entry of another type
makes the underlying command fail, leaving the cache unchanged. -/
def HSet (c : Cache) (now : Nat) (key : String) (fields : List (String × String)) : Cache :=
  match cacheLookup c now key with
  | some e =>
    match e.val with
    | .hash h => cacheSet c key ⟨.hash (hashSetFields h fields), e.expiresAt⟩
    | _ => c
  | none => cacheSet c key ⟨.hash (hashSetFields [] fields), none⟩

/-- Client.SAdd for a single member. -/
def SAdd (c : Cache) (now : Nat) (key member : String) : Cache :=
  match cacheLookup c now key with
  | some e =>
    match e.val with
    | .set ms => cacheSet c key ⟨.set (if ms.contains member then ms else ms ++ [member]), e.expiresAt⟩
    | _ => c
  | none => cacheSet c key ⟨.set [member], none⟩

/-- Client.SRem for a single member. -/
def SRem (c : Cache) (now : Nat) (key member : String) : Cache :=
  match cacheLookup c now key with
  | some e =>
    match e.val with
    | .set ms => cacheSet c key ⟨.set (ms.filter (fun m => m != member)), e.expiresAt⟩
    | _ => c
  | none => c

/-! ## Lock repository (internal/repository/redis LockRepository) -/

/-- LockRepository.AcquireLock: SetNX on key `lock:` ++ resource with value "1". -/
def AcquireLock (now : Nat) (c : Cache) (resource : String) (ttl : Nat) : Bool × Cache :=
  SetNX c now ("lock:" ++ resource) "1" ttl

/-- LockRepository.ReleaseLock: unconditional delete of `lock:` ++ resource. -/
def ReleaseLock (c : Cache) (resource : String) : Cache :=
  cacheDel c ["lock:" ++ resource]

/-- the lock for `resource` is held and unexpired at `now`. -/
def lockHeld (c : Cache) (now : Nat) (resource : String) : Bool :=
  (cacheLookup c now ("lock:" ++ resource)).isSome

/-! ## Authoritative store model (internal/model, repository/postgres) -/

/-- RoomStatus: Waiting/Playing/Finished/Cancelled. -/
inductive RoomStatus where
  | waiting
  | playing
  | finished
  | cancelled
  deriving DecidableEq, Repr

/-- the integer value of each status constant in internal/model. -/
def RoomStatus.toInt : RoomStatus → Int
  | .waiting => 1
  | .playing => 2
  | .finished => 3
  | .cancelled => 4

/-- model.Room; `deletedAt` is the gorm soft-delete column. -/
structure Room where
  id : Nat
  roomCode : String
  name : String
  ownerID : Nat
  status : RoomStatus
  maxPlayers : Int
  currentPlayers : Int
  gameType : String
  settings : String
  startedAt : Option Nat
  endedAt : Option Nat
  expiresAt : Option Nat
  deletedAt : Option Nat
  deriving DecidableEq, Repr

/-- model.RoomPlayer: a membership row; `leftAt` none means the membership is active. -/
structure RoomPlayer where
  id : Nat
  roomID : Nat
  userID : Nat
  isReady : Bool
  position : Int
  joinedAt : Nat
  leftAt : Option Nat
  deriving DecidableEq, Repr

/-- the relational store: room rows, membership rows, and auto-increment counters. -/
structure Store where
  rooms : List Room
  players : List RoomPlayer
  nextRoomID : Nat
  nextPlayerID : Nat
  deriving DecidableEq, Repr

/-- RoomRepository.GetByID: first room row with this id that is not soft-deleted. -/
def findRoomByID (s : Store) (rid : Nat) : Option Room :=
  s.rooms.find? (fun r => r.id == rid && r.deletedAt.isNone)

/-- RoomRepository.GetByRoomCode: first non-deleted room row with this code. -/
def findRoomByCode (s : Store) (code : String) : Option Room :=
  s.rooms.find? (fun r => r.roomCode == code && r.deletedAt.isNone)

/-- RoomRepository.Update (gorm Save): replace the row keyed by the room id. -/
def updateRoom (s : Store) (room : Room) : Store :=
  { s with rooms := s.rooms.map (fun r => if r.id == room.id then room else r) }

/-- RoomRepository.Delete: gorm soft delete, stamping deletedAt on live rows with this id. -/
def deleteRoomStore (s : Store) (now : Nat) (rid : Nat) : Store :=
  { s with rooms := s.rooms.map (fun r =>
      if r.id == rid && r.deletedAt.isNone then { r with deletedAt := some now } else r) }

/-- RoomPlayerRepository.GetByRoomID: membership rows of the room with left_at NULL. -/
def activePlayers (s : Store) (rid : Nat) : List RoomPlayer :=
  s.players.filter (fun p => p.roomID == rid && p.leftAt.isNone)

/-- RoomPlayerRepository.GetByRoomIDAndUserID: the user's active membership, if any. -/
def findActivePlayer (s : Store) (rid uid : Nat) : Option RoomPlayer :=
  s.players.find? (fun p => p.roomID == rid && p.userID == uid && p.leftAt.isNone)

/-- RoomPlayerRepository.LeaveRoom: UPDATE left_at = NOW() WHERE room_id AND user_id.
The SQL has no `left_at IS NULL` condition, so it restamps already-closed rows
and matches nothing for a non-member. -/
def playersLeaveRoom (s : Store) (rid uid : Nat) (now : Nat) : Store :=
  { s with players := s.players.map (fun p =>
      if p.roomID == rid && p.userID == uid then { p with leftAt := some now } else p) }

/-! ## Room cache mirror (internal/repository/redis RoomRepository) -/

/-- RoomRepository.SetRoomState: HSet on key `room:` ++ id.  The Go method takes
an `expiration` duration but never uses it (no Expire call follows the HSet),
so the parameter is carried here and ignored exactly as in the source. -/
def SetRoomState (c : Cache) (now : Nat) (roomID : Nat) (data : List (String × String))
    (expiration : Nat) : Cache :=
  HSet c now ("room:" ++ toString roomID) data

/-- RoomRepository.AddRoomPlayer: SAdd of the user id onto `room:players:` ++ id. -/
def AddRoomPlayer (c : Cache) (now : Nat) (roomID userID : Nat) : Cache :=
  SAdd c now ("room:players:" ++ toString roomID) (toString userID)

/-- RoomRepository.RemoveRoomPlayer: SRem of the user id from `room:players:` ++ id. -/
def RemoveRoomPlayer (c : Cache) (now : Nat) (roomID userID : Nat) : Cache :=
  SRem c now ("room:players:" ++ toString roomID) (toString userID)

/-- RoomRepository.DeleteRoom: delete both the room hash and the member set. -/
def RedisDeleteRoom (c : Cache) (roomID : Nat) : Cache :=
  cacheDel c ["room:" ++ toString roomID, "room:players:" ++ toString roomID]

/-! ## Room service (internal/service/game/room.go, ProcessService) -/

/-- service configuration: the configured max players and default timeout. -/
structure Config where
  maxPlayers : Int
  defaultTimeout : Nat
  deriving DecidableEq, Repr

/-- the world the orchestrator acts on: authoritative store plus cache. -/
structure World where
  store : Store
  cache : Cache
  deriving DecidableEq, Repr

/-- the code point Go's string(rune(n)) produces: n itself when it is a valid
code point, the replacement character U+FFFD otherwise. -/
def goRuneCodepoint (n : Nat) : Nat :=
  if n < 55296 ∨ (57344 ≤ n ∧ n < 1114112) then n else 65533

/-- Go's string(rune(n)): a one-character string. -/
def goRuneString (n : Nat) : String :=
  String.mk [Char.ofNat (goRuneCodepoint n)]

/-- the lock resource JoinRoom uses: "room:lock:" ++ the room code. -/
def joinRoomLockKey (roomCode : String) : String := "room:lock:" ++ roomCode

/-- the lock resource LeaveRoom uses: "room:lock:" ++ string(rune(roomID)). -/
def leaveRoomLockKey (roomID : Nat) : String := "room:lock:" ++ goRuneString roomID

/-- the lock resource StartGame uses: "game:lock:" ++ string(rune(roomID)). -/
def startGameLockKey (roomID : Nat) : String := "game:lock:" ++ goRuneString roomID

/-- the lock resource EndGame uses: "game:lock:" ++ string(rune(roomID)). -/
def endGameLockKey (roomID : Nat) : String := "game:lock:" ++ goRuneString roomID

/-- the hash fields syncRoomToRedis writes for a room (values serialized to strings). -/
def roomHashFields (room : Room) : List (String × String) :=
  [("id", toString room.id),
   ("room_code", room.roomCode),
   ("name", room.name),
   ("owner_id", toString room.ownerID),
   ("status", toString room.status.toInt),
   ("max_players", toString room.maxPlayers),
   ("current_players", toString room.currentPlayers),
   ("game_type", room.gameType),
   ("settings", room.settings)] ++
  (match room.expiresAt with
   | some t => [("expires_at", toString t)]
   | none => [])

/-- RoomService.syncRoomToRedis: SetRoomState with the default timeout as expiration. -/
def syncRoomToRedis (cfg : Config) (now : Nat) (c : Cache) (room : Room) : Cache :=
  SetRoomState c now room.id (roomHashFields room) cfg.defaultTimeout

/-- CreateRoomRequest fields. -/
structure CreateRoomRequest where
  name : String
  gameType : String
  settings : String
  deriving DecidableEq, Repr

/-- RoomService.CreateRoom.  The random room code is a parameter.  The two
external calls whose failure the claims discuss are reflected as booleans:
`memberInsertOk` is whether the owner-membership insert succeeds (on failure
the code deletes the room and reports Internal), and `mirrorOk` is whether
the Redis mirror write succeeds (its error is discarded inside
syncRoomToRedis, so failure changes nothing but the cache). -/
def CreateRoom (cfg : Config) (now : Nat) (roomCode : String) (ownerID : Nat)
    (req : CreateRoomRequest) (memberInsertOk mirrorOk : Bool) (w : World) :
    GoResult Room × World :=
  let rid := w.store.nextRoomID
  let room : Room :=
    { id := rid, roomCode := roomCode, name := req.name, ownerID := ownerID,
      status := .waiting, maxPlayers := cfg.maxPlayers, currentPlayers := 0,
      gameType := req.gameType, settings := req.settings,
      startedAt := none, endedAt := none, expiresAt := some (now + cfg.defaultTimeout),
      deletedAt := none }
  let st1 : Store := { w.store with rooms := w.store.rooms ++ [room], nextRoomID := rid + 1 }
  if memberInsertOk then
    let rp : RoomPlayer :=
      { id := st1.nextPlayerID, roomID := rid, userID := ownerID, isReady := false,
        position := 0, joinedAt := now, leftAt := none }
    let st2 : Store :=
      { st1 with
          players := st1.players ++ [rp],
          nextPlayerID := st1.nextPlayerID + 1 }
    let room1 : Room := { room with currentPlayers := 1 }
    let st3 := updateRoom st2 room1
    let c1 := if mirrorOk then syncRoomToRedis cfg now w.cache room1 else w.cache
    (.ok room1, ⟨st3, c1⟩)
  else
    (.err .internal, ⟨deleteRoomStore st1 now rid, w.cache⟩)

/-- RoomService.JoinRoom: lock on the room code, then look up the room and run
the status, capacity and duplicate-membership checks; the new seat is the
count of active memberships; the lock is released on every exit path after a
successful acquire (defer). -/
def JoinRoom (cfg : Config) (now : Nat) (userID : Nat) (roomCode : String) (w : World) :
    GoResult Room × World :=
  let ac := AcquireLock now w.cache (joinRoomLockKey roomCode) 5
  if ac.1 then
    let c1 := ac.2
    match findRoomByCode w.store roomCode with
    | none => (.err .notFound, ⟨w.store, ReleaseLock c1 (joinRoomLockKey roomCode)⟩)
    | some room =>
      if room.status ≠ .waiting then
        (.err .conflict, ⟨w.store, ReleaseLock c1 (joinRoomLockKey roomCode)⟩)
      else if room.maxPlayers ≤ room.currentPlayers then
        (.err .conflict, ⟨w.store, ReleaseLock c1 (joinRoomLockKey roomCode)⟩)
      else
        match findActivePlayer w.store room.id userID with
        | some _ => (.err .conflict, ⟨w.store, ReleaseLock c1 (joinRoomLockKey roomCode)⟩)
        | none =>
          let rp : RoomPlayer :=
            { id := w.store.nextPlayerID, roomID := room.id, userID := userID,
              isReady := false, position := ((activePlayers w.store room.id).length : Int),
              joinedAt := now, leftAt := none }
          let st2 : Store :=
            { w.store with
                players := w.store.players ++ [rp],
                nextPlayerID := w.store.nextPlayerID + 1 }
          let room1 : Room := { room with currentPlayers := room.currentPlayers + 1 }
          let st3 := updateRoom st2 room1
          let c2 := syncRoomToRedis cfg now c1 room1
          let c3 := AddRoomPlayer c2 now room.id userID
          (.ok room1, ⟨st3, ReleaseLock c3 (joinRoomLockKey roomCode)⟩)
  else
    (.err .conflict, ⟨w.store, ac.2⟩)

/-- RoomService.LeaveRoom: lock on string(rune(roomID)), stamp the caller's
membership rows, decrement occupancy when positive, and delete the room
(store and both cache keys) when occupancy reaches zero, otherwise refresh
the mirror and drop the member from the cache set. -/
def LeaveRoom (cfg : Config) (now : Nat) (userID roomID : Nat) (w : World) :
    GoResult Unit × World :=
  let ac := AcquireLock now w.cache (leaveRoomLockKey roomID) 5
  if ac.1 then
    let c1 := ac.2
    match findRoomByID w.store roomID with
    | none => (.err .notFound, ⟨w.store, ReleaseLock c1 (leaveRoomLockKey roomID)⟩)
    | some room =>
      let st1 := playersLeaveRoom w.store roomID userID now
      let room1 := if 0 < room.currentPlayers then
        { room with currentPlayers := room.currentPlayers - 1 } else room
      let st2 := if 0 < room.currentPlayers then updateRoom st1 room1 else st1
      if room1.currentPlayers = 0 then
        (.ok (), ⟨deleteRoomStore st2 now roomID,
          ReleaseLock (RedisDeleteRoom c1 roomID) (leaveRoomLockKey roomID)⟩)
      else
        let c2 := syncRoomToRedis cfg now c1 room1
        let c3 := RemoveRoomPlayer c2 now roomID userID
        (.ok (), ⟨st2, ReleaseLock c3 (leaveRoomLockKey roomID)⟩)
  else
    (.err .conflict, ⟨w.store, ac.2⟩)

/-- RoomService.GetRoom: GetByID, NotFound when absent. -/
def GetRoom (s : Store) (roomID : Nat) : GoResult Room :=
  match findRoomByID s roomID with
  | none => .err .notFound
  | some room => .ok room

/-- ProcessService.StartGame: lock, fetch, reject non-Waiting with Conflict,
then set Playing with a start timestamp and merge a partial mirror update
(expiration argument 0, ignored by SetRoomState). -/
def StartGame (cfg : Config) (now : Nat) (roomID : Nat) (w : World) :
    GoResult Unit × World :=
  let ac := AcquireLock now w.cache (startGameLockKey roomID) 10
  if ac.1 then
    let c1 := ac.2
    match findRoomByID w.store roomID with
    | none => (.err .notFound, ⟨w.store, ReleaseLock c1 (startGameLockKey roomID)⟩)
    | some room =>
      if room.status ≠ .waiting then
        (.err .conflict, ⟨w.store, ReleaseLock c1 (startGameLockKey roomID)⟩)
      else
        let room1 : Room := { room with status := .playing, startedAt := some now }
        let st1 := updateRoom w.store room1
        let c2 := SetRoomState c1 now roomID
          [("status", toString RoomStatus.playing.toInt), ("started_at", toString now),
           ("game_state", "2")] 0
        (.ok (), ⟨st1, ReleaseLock c2 (startGameLockKey roomID)⟩)
  else
    (.err .conflict, ⟨w.store, ac.2⟩)

/-- ProcessService.EndGame: lock, fetch, and — with no status check — set the
room Finished with an end timestamp, then merge a partial mirror update
carrying the serialized results. -/
def EndGame (cfg : Config) (now : Nat) (roomID : Nat) (results : String) (w : World) :
    GoResult Unit × World :=
  let ac := AcquireLock now w.cache (endGameLockKey roomID) 10
  if ac.1 then
    let c1 := ac.2
    match findRoomByID w.store roomID with
    | none => (.err .notFound, ⟨w.store, ReleaseLock c1 (endGameLockKey roomID)⟩)
    | some room =>
      let room1 : Room := { room with status := .finished, endedAt := some now }
      let st1 := updateRoom w.store room1
      let c2 := SetRoomState c1 now roomID
        [("status", toString RoomStatus.finished.toInt), ("ended_at", toString now),
         ("game_state", "5"), ("results", results)] 0
      (.ok (), ⟨st1, ReleaseLock c2 (endGameLockKey roomID)⟩)
  else
    (.err .conflict, ⟨w.store, ac.2⟩)

/-! ## Connection hub (websocket Hub, sequentialized)

The Go hub serializes register/unregister/broadcast through one goroutine;
targeted sends take the same mutex.  The model runs those handlers as pure
state transformers.  A connection identity `cid` names one websocket client;
its buffered Send channel is a queue with capacity 256 plus a closed flag. -/

/-- one connection's outbound channel: queued messages and whether it is closed. -/
structure ConnState where
  queue : List String
  closed : Bool
  deriving DecidableEq, Repr

/-- the hub registry: user id to connection id, plus the state of every connection. -/
structure HubState where
  clients : List (Nat × Nat)
  conns : Nat → ConnState

/-- the Send channel buffer capacity (make(chan []byte, 256)). -/
def hubQueueCap : Nat := 256

/-- point update of the connection-state map. -/
def connUpdate (f : Nat → ConnState) (cid : Nat) (cs : ConnState) : Nat → ConnState :=
  fun k => if k = cid then cs else f k

/-- Hub.Run register case: h.clients[client.UserID] = client.  The map entry is
overwritten; the displaced connection is left untouched. -/
def hubRegister (st : HubState) (uid cid : Nat) : HubState :=
  { st with clients := (uid, cid) :: st.clients.filter (fun p => p.1 != uid) }

/-- Hub.Run unregister case: when an entry exists for the user, drop it and
close the unregistering client's channel. -/
def hubUnregister (st : HubState) (uid cid : Nat) : HubState :=
  match st.clients.find? (fun p => p.1 == uid) with
  | none => st
  | some _ =>
    { clients := st.clients.filter (fun p => p.1 != uid)
      conns := connUpdate st.conns cid { st.conns cid with closed := true } }

/-- Hub.SendToUser: look the user up; a nonblocking send succeeds when the
queue has room, otherwise the channel is closed and the entry deleted. -/
def hubSendToUser (st : HubState) (uid : Nat) (msg : String) : HubState :=
  match st.clients.find? (fun p => p.1 == uid) with
  | none => st
  | some entry =>
    let cs := st.conns entry.2
    if cs.queue.length < hubQueueCap then
      { st with conns := connUpdate st.conns entry.2 { cs with queue := cs.queue ++ [msg] } }
    else
      { clients := st.clients.filter (fun p => p.1 != entry.1)
        conns := connUpdate st.conns entry.2 { cs with closed := true } }

/-- one step of the Hub.Run broadcast loop body for the registry entry `entry`. -/
def hubBroadcastStep (msg : String) (st : HubState) (entry : Nat × Nat) : HubState :=
  let cs := st.conns entry.2
  if cs.queue.length < hubQueueCap then
    { st with conns := connUpdate st.conns entry.2 { cs with queue := cs.queue ++ [msg] } }
  else
    { clients := st.clients.filter (fun p => p.1 != entry.1)
      conns := connUpdate st.conns entry.2 { cs with closed := true } }

/-- Hub.Run broadcast case: the loop over the registry applies the nonblocking
send / evict policy to each registered connection in turn. -/
def hubBroadcast (st : HubState) (msg : String) : HubState :=
  st.clients.foldl (hubBroadcastStep msg) st

/-- the spec's occupancy invariant, decided on a store: every live room's
CurrentPlayers equals the number of its memberships with no leave-timestamp. -/
def occupancyInvB (s : Store) : Bool :=
  s.rooms.all (fun r => !r.deletedAt.isNone ||
    r.currentPlayers == ((activePlayers s r.id).length : Int))

/-! ## Basic cache lemmas -/

theorem cacheLookupRaw_cacheSet_self (c : Cache) (k : String) (e : CacheEntry) :
    cacheLookupRaw (cacheSet c k e) k = some e := by
  simp [cacheLookupRaw, cacheSet, List.find?]

theorem cacheLookup_cacheSet_self (c : Cache) (now : Nat) (k : String) (e : CacheEntry) :
    cacheLookup (cacheSet c k e) now k = if e.live now then some e else none := by
  rw [cacheLookup, cacheLookupRaw_cacheSet_self]

theorem cacheLookupRaw_cacheDel_mem (c : Cache) (ks : List String) (k : String)
    (hk : ks.contains k = true) :
    cacheLookupRaw (cacheDel c ks) k = none := by
  rw [cacheLookupRaw, cacheDel]
  have : (c.entries.filter (fun p => !(ks.contains p.1))).find? (fun p => p.1 == k) = none := by
    rw [List.find?_eq_none]
    intro x hx hpx
    have hmem := (List.mem_filter.mp hx).2
    have hxk : x.1 = k := by simpa using hpx
    rw [hxk, hk] at hmem
    simp at hmem
  rw [this]
  rfl

theorem cacheLookupRaw_cacheDel_of_none (c : Cache) (ks : List String) (k : String)
    (h : cacheLookupRaw c k = none) :
    cacheLookupRaw (cacheDel c ks) k = none := by
  rw [cacheLookupRaw, cacheDel]
  rw [cacheLookupRaw] at h
  have hnone : c.entries.find? (fun p => p.1 == k) = none := by
    cases hf : c.entries.find? (fun p => p.1 == k) with
    | none => rfl
    | some p => rw [hf] at h; simp at h
  have : (c.entries.filter (fun p => !(ks.contains p.1))).find? (fun p => p.1 == k) = none := by
    rw [List.find?_eq_none]
    intro x hx hpx
    have hmem := (List.mem_filter.mp hx).1
    have := List.find?_eq_none.mp hnone x hmem
    exact this hpx
  rw [this]
  rfl

theorem cacheLookup_of_raw_none (c : Cache) (now : Nat) (k : String)
    (h : cacheLookupRaw c k = none) :
    cacheLookup c now k = none := by
  rw [cacheLookup, h]

/-! ## Lock manager lemmas -/

theorem AcquireLock_of_held (c : Cache) (now : Nat) (k : String) (ttl : Nat)
    (h : lockHeld c now k = true) :
    AcquireLock now c k ttl = (false, c) := by
  rw [lockHeld, Option.isSome_iff_exists] at h
  obtain ⟨e, he⟩ := h
  rw [AcquireLock, SetNX, he]

theorem AcquireLock_of_free (c : Cache) (now : Nat) (k : String) (ttl : Nat)
    (h : lockHeld c now k = false) :
    AcquireLock now c k ttl =
      (true, cacheSet c ("lock:" ++ k)
        ⟨.str "1", if ttl = 0 then none else some (now + ttl)⟩) := by
  rw [lockHeld] at h
  have hnone : cacheLookup c now ("lock:" ++ k) = none := by
    cases hf : cacheLookup c now ("lock:" ++ k) with
    | none => rfl
    | some e => rw [hf] at h; simp at h
  rw [AcquireLock, SetNX, hnone]

/-- C7 (confirmed): acquire is set-if-absent with TTL — an acquire while the
key is held and unexpired returns false and changes nothing; an acquire taken
at `now` with positive TTL expires, so a new acquire at any time past
now + ttl succeeds; release is an unconditional delete, after which an
acquire on the same key always succeeds, whoever held it. -/
theorem lock_manager_spec :
    (∀ (c : Cache) (now : Nat) (k : String) (ttl : Nat),
       lockHeld c now k = true → AcquireLock now c k ttl = (false, c)) ∧
    (∀ (c : Cache) (now : Nat) (k : String) (ttl t' ttl' : Nat),
       lockHeld c now k = false → 0 < ttl → now + ttl ≤ t' →
       (AcquireLock t' (AcquireLock now c k ttl).2 k ttl').1 = true) ∧
    (∀ (c : Cache) (k : String),
       cacheLookupRaw (ReleaseLock c k) ("lock:" ++ k) = none) ∧
    (∀ (c : Cache) (k : String) (now ttl : Nat),
       (AcquireLock now (ReleaseLock c k) k ttl).1 = true) := by
  refine ⟨fun c now k ttl h => AcquireLock_of_held c now k ttl h, ?_, ?_, ?_⟩
  · intro c now k ttl t' ttl' hfree httl ht
    rw [AcquireLock_of_free c now k ttl hfree]
    have hdead : CacheEntry.live
        ⟨.str "1", if ttl = 0 then none else some (now + ttl)⟩ t' = false := by
      have : ¬ ttl = 0 := Nat.pos_iff_ne_zero.mp httl
      simp only [CacheEntry.live, this, if_false]
      simpa using Nat.not_lt.mpr ht
    have hlook : cacheLookup
        (cacheSet c ("lock:" ++ k) ⟨.str "1", if ttl = 0 then none else some (now + ttl)⟩)
        t' ("lock:" ++ k) = none := by
      rw [cacheLookup_cacheSet_self, hdead]
      rfl
    rw [AcquireLock, SetNX, hlook]
  · intro c k
    exact cacheLookupRaw_cacheDel_mem c _ _ (by simp)
  · intro c k now ttl
    have hlook : cacheLookup (ReleaseLock c k) now ("lock:" ++ k) = none :=
      cacheLookup_of_raw_none _ now _
        (cacheLookupRaw_cacheDel_mem c _ _ (by simp))
    rw [AcquireLock, SetNX, hlook]

/-- witness for C7 at concrete inputs: acquiring "a" at time 0 with TTL 5 then
again at time 3 fails; at time 7 it succeeds; release then acquire succeeds. -/
theorem lock_manager_spec_witness :
    AcquireLock 3 (AcquireLock 0 (Cache.mk []) "a" 5).2 "a" 5 =
      (false, (AcquireLock 0 (Cache.mk []) "a" 5).2) ∧
    (AcquireLock 7 (AcquireLock 0 (Cache.mk []) "a" 5).2 "a" 5).1 = true ∧
    (AcquireLock 2 (ReleaseLock (AcquireLock 0 (Cache.mk []) "a" 5).2 "a") "a" 5).1 = true :=
  ⟨lock_manager_spec.1 (AcquireLock 0 (Cache.mk []) "a" 5).2 3 "a" 5 (by decide),
   lock_manager_spec.2.1 (Cache.mk []) 0 "a" 5 7 5 (by decide) (by decide) (by decide),
   lock_manager_spec.2.2.2 (AcquireLock 0 (Cache.mk []) "a" 5).2 "a" 2 5⟩

/-! ## C10: the cache mirror's TTL -/

/-- C10 (code bug in SetRoomState): the Go method accepts an expiration
duration but its body is a bare HSET with no Expire call, so the argument is
ignored — the write with any expiration equals the write with none — and a
mirror hash created on a fresh key is stored without TTL and is still live at
every later time, so mirror entries never expire. -/
theorem setRoomState_ignores_expiration :
    (∀ (c : Cache) (now rid expiration : Nat) (data : List (String × String)),
       SetRoomState c now rid data expiration = SetRoomState c now rid data 0) ∧
    (∀ (now rid expiration t : Nat) (data : List (String × String)),
       cacheLookup (SetRoomState (Cache.mk []) now rid data expiration) t
         ("room:" ++ toString rid) = some ⟨.hash (hashSetFields [] data), none⟩) := by
  constructor
  · intro c now rid expiration data
    rfl
  · intro now rid expiration t data
    have h0 : cacheLookup (Cache.mk []) now ("room:" ++ toString rid) = none := rfl
    rw [SetRoomState, HSet, h0, cacheLookup_cacheSet_self]
    rfl

/-! ## C8: connection hub -/

theorem assocFind_filter_self (l : List (Nat × Nat)) (uid : Nat) :
    (l.filter (fun p => p.1 != uid)).find? (fun p => p.1 == uid) = none := by
  rw [List.find?_eq_none]
  intro x hx hpx
  have hmem := (List.mem_filter.mp hx).2
  have hxk : x.1 = uid := by simpa using hpx
  simp [hxk] at hmem

theorem assocFind_filter_of_none (l : List (Nat × Nat)) (q : Nat × Nat → Bool) (uid : Nat)
    (h : l.find? (fun p => p.1 == uid) = none) :
    (l.filter q).find? (fun p => p.1 == uid) = none := by
  rw [List.find?_eq_none] at h ⊢
  intro x hx
  exact h x (List.mem_filter.mp hx).1

theorem hubBroadcastStep_conns_other (msg : String) (acc : HubState) (e : Nat × Nat)
    (cid : Nat) (h : e.2 ≠ cid) :
    (hubBroadcastStep msg acc e).conns cid = acc.conns cid := by
  rw [hubBroadcastStep]
  split
  · simp only [connUpdate]
    exact if_neg (fun hc => h hc.symm)
  · simp only [connUpdate]
    exact if_neg (fun hc => h hc.symm)

theorem hubBroadcastStep_find_none (msg : String) (acc : HubState) (e : Nat × Nat)
    (uid : Nat) (h : acc.clients.find? (fun p => p.1 == uid) = none) :
    (hubBroadcastStep msg acc e).clients.find? (fun p => p.1 == uid) = none := by
  rw [hubBroadcastStep]
  split
  · exact h
  · exact assocFind_filter_of_none _ _ _ h

theorem hubBroadcast_foldl_conns_preserved (msg : String) (cid : Nat) :
    ∀ (l : List (Nat × Nat)) (acc : HubState), (∀ e ∈ l, e.2 ≠ cid) →
      (l.foldl (hubBroadcastStep msg) acc).conns cid = acc.conns cid := by
  intro l
  induction l with
  | nil => intro acc _; rfl
  | cons x xs ih =>
    intro acc hl
    rw [List.foldl_cons]
    rw [ih (hubBroadcastStep msg acc x) (fun e he => hl e (List.mem_cons_of_mem x he))]
    exact hubBroadcastStep_conns_other msg acc x cid (hl x (List.mem_cons_self x xs))

theorem hubBroadcast_foldl_evicted_preserved (msg : String) (uid cid : Nat) :
    ∀ (l : List (Nat × Nat)) (acc : HubState), (∀ e ∈ l, e.2 ≠ cid) →
      acc.clients.find? (fun p => p.1 == uid) = none →
      (acc.conns cid).closed = true →
      (l.foldl (hubBroadcastStep msg) acc).clients.find? (fun p => p.1 == uid) = none ∧
        ((l.foldl (hubBroadcastStep msg) acc).conns cid).closed = true := by
  intro l
  induction l with
  | nil => intro acc _ h1 h2; exact ⟨h1, h2⟩
  | cons x xs ih =>
    intro acc hl h1 h2
    rw [List.foldl_cons]
    refine ih (hubBroadcastStep msg acc x) (fun e he => hl e (List.mem_cons_of_mem x he))
      (hubBroadcastStep_find_none msg acc x uid h1) ?_
    rw [hubBroadcastStep_conns_other msg acc x cid (hl x (List.mem_cons_self x xs))]
    exact h2

/-- C8 (confirmed): registering two connections for one user identity leaves
the registry with exactly one live entry for it — the second connection,
while the first one's channel state is untouched (the hub does not close the
displaced connection) — and a targeted send or a broadcast reaching a
connection whose outbound queue is full closes that connection's channel and
removes its registry entry instead of blocking. -/
theorem hub_registry_and_backpressure :
    (∀ (st : HubState) (uid cid1 cid2 : Nat),
       (hubRegister (hubRegister st uid cid1) uid cid2).clients.find?
           (fun p => p.1 == uid) = some (uid, cid2) ∧
       (hubRegister (hubRegister st uid cid1) uid cid2).clients.countP
           (fun p => p.1 == uid) = 1 ∧
       (hubRegister (hubRegister st uid cid1) uid cid2).conns = st.conns) ∧
    (∀ (st : HubState) (uid : Nat) (entry : Nat × Nat) (msg : String),
       st.clients.find? (fun p => p.1 == uid) = some entry →
       hubQueueCap ≤ (st.conns entry.2).queue.length →
       (hubSendToUser st uid msg).clients.find? (fun p => p.1 == uid) = none ∧
         ((hubSendToUser st uid msg).conns entry.2).closed = true) ∧
    (∀ (st : HubState) (uid cid : Nat) (msg : String),
       (uid, cid) ∈ st.clients →
       hubQueueCap ≤ (st.conns cid).queue.length →
       st.clients.Pairwise (fun a b => a.2 ≠ b.2) →
       (hubBroadcast st msg).clients.find? (fun p => p.1 == uid) = none ∧
         ((hubBroadcast st msg).conns cid).closed = true) := by
  refine ⟨?_, ?_, ?_⟩
  · intro st uid cid1 cid2
    refine ⟨by simp [hubRegister, List.find?], ?_, rfl⟩
    simp only [hubRegister]
    rw [List.countP_cons_of_pos _ _ (by simp)]
    have : ∀ (l : List (Nat × Nat)),
        (l.filter (fun p => p.1 != uid)).countP (fun p => p.1 == uid) = 0 := by
      intro l
      rw [List.countP_eq_zero]
      intro p hp hpx
      have hmem := (List.mem_filter.mp hp).2
      have : p.1 = uid := by simpa using hpx
      simp [this] at hmem
    rw [this]
  · intro st uid entry msg hfind hfull
    have hfst : entry.1 = uid := by
      have := List.find?_some hfind
      simpa using this
    rw [hubSendToUser, hfind]
    simp only
    rw [if_neg (Nat.not_lt.mpr hfull)]
    constructor
    · simp only [hfst]
      exact assocFind_filter_self st.clients uid
    · simp [connUpdate]
  · intro st uid cid msg hmem hfull huniq
    obtain ⟨l1, l2, hsplit⟩ := List.append_of_mem hmem
    rw [hubBroadcast, hsplit, List.foldl_append, List.foldl_cons]
    have hpw := hsplit ▸ huniq
    rw [List.pairwise_append] at hpw
    have hl1cid : ∀ e ∈ l1, e.2 ≠ cid := by
      intro e he
      exact hpw.2.2 e he (uid, cid) (List.mem_cons_self _ _)
    have hl2cid : ∀ e ∈ l2, e.2 ≠ cid := by
      intro e he
      have := (List.pairwise_cons.mp hpw.2.1).1 e he
      exact fun hc => this (hc ▸ rfl)
    set acc1 := l1.foldl (hubBroadcastStep msg) st with hacc1
    have hconns1 : acc1.conns cid = st.conns cid :=
      hubBroadcast_foldl_conns_preserved msg cid l1 st hl1cid
    have hstep : (hubBroadcastStep msg acc1 (uid, cid)).clients.find?
          (fun p => p.1 == uid) = none ∧
        ((hubBroadcastStep msg acc1 (uid, cid)).conns cid).closed = true := by
      rw [hubBroadcastStep]
      simp only
      rw [hconns1, if_neg (Nat.not_lt.mpr hfull)]
      exact ⟨assocFind_filter_self acc1.clients uid, by simp [connUpdate]⟩
    exact hubBroadcast_foldl_evicted_preserved msg uid cid l2
      (hubBroadcastStep msg acc1 (uid, cid)) hl2cid hstep.1 hstep.2

/-- a hub with one registered user whose connection queue is full. -/
def hubFullW : HubState :=
  ⟨[(1, 7)], fun _ => ⟨List.replicate 256 "m", false⟩⟩

set_option maxRecDepth 10000 in
/-- witness for C8: on a hub whose only client has a full queue, a targeted
send evicts the client, and a broadcast does the same. -/
theorem hub_registry_and_backpressure_witness :
    ((hubSendToUser hubFullW 1 "x").clients.find? (fun p => p.1 == 1) = none ∧
      ((hubSendToUser hubFullW 1 "x").conns 7).closed = true) ∧
    ((hubBroadcast hubFullW "x").clients.find? (fun p => p.1 == 1) = none ∧
      ((hubBroadcast hubFullW "x").conns 7).closed = true) :=
  ⟨hub_registry_and_backpressure.2.1 hubFullW 1 (1, 7) "x" (by rfl)
     (by simp [hubFullW, hubQueueCap]),
   hub_registry_and_backpressure.2.2 hubFullW 1 7 "x" (by simp [hubFullW])
     (by simp [hubFullW, hubQueueCap]) (by simp [hubFullW])⟩

/-! ## Store lemmas -/

theorem findRoomByID_deleteRoomStore (s : Store) (t rid : Nat) :
    findRoomByID (deleteRoomStore s t rid) rid = none := by
  rw [findRoomByID, deleteRoomStore, List.find?_eq_none]
  intro r hr hpr
  obtain ⟨r0, hr0, rfl⟩ := List.mem_map.mp hr
  by_cases h : (r0.id == rid && r0.deletedAt.isNone) = true
  · rw [if_pos h] at hpr
    simp at hpr
  · rw [if_neg h] at hpr
    exact h hpr

theorem updateRoom_rooms_id (s : Store) (room1 : Room) :
    ∀ r ∈ (updateRoom s room1).rooms, r.id = room1.id → r = room1 := by
  intro r hr hid
  rw [updateRoom] at hr
  obtain ⟨r0, hr0, rfl⟩ := List.mem_map.mp hr
  by_cases h : (r0.id == room1.id) = true
  · rw [if_pos h]
  · rw [if_neg h] at hid ⊢
    exact absurd (by simpa using hid) (by simpa using h)

theorem cacheLookup_some_raw (c : Cache) (now : Nat) (k : String) (e : CacheEntry)
    (h : cacheLookup c now k = some e) : cacheLookupRaw c k = some e := by
  rw [cacheLookup] at h
  cases hr : cacheLookupRaw c k with
  | none => simp [hr] at h
  | some e0 =>
    simp only [hr] at h
    by_cases hl : e0.live now = true
    · rw [if_pos hl] at h
      exact h
    · rw [if_neg hl] at h
      exact absurd h (by simp)

theorem cacheLookupRaw_HSet_isSome (c : Cache) (now : Nat) (key : String)
    (fields : List (String × String)) :
    (cacheLookupRaw (HSet c now key fields) key).isSome = true := by
  rw [HSet]
  split
  · rename_i e heq
    split
    · rw [cacheLookupRaw_cacheSet_self]; rfl
    · rw [cacheLookup_some_raw c now key e heq]; rfl
  · rw [cacheLookupRaw_cacheSet_self]; rfl

/-! ## C9: StartGame on a non-Waiting room -/

/-- C9 (confirmed): when the start lock is free and the room exists with a
status other than Waiting, StartGame returns Conflict and the authoritative
store is exactly what it was — the status check precedes every write. -/
theorem startGame_rejects_nonwaiting (cfg : Config) (now rid : Nat) (w : World) (room : Room)
    (hlock : lockHeld w.cache now (startGameLockKey rid) = false)
    (hroom : findRoomByID w.store rid = some room)
    (hst : room.status ≠ .waiting) :
    (StartGame cfg now rid w).1 = .err .conflict ∧
      (StartGame cfg now rid w).2.store = w.store := by
  rw [StartGame, AcquireLock_of_free _ _ _ _ hlock]
  simp only [hroom, if_pos hst]
  exact ⟨rfl, rfl⟩

/-- a world with one Playing room with two members, id 1, empty cache. -/
def wPlaying : World :=
  { store :=
      { rooms := [{ id := 1, roomCode := "aaaa", name := "r", ownerID := 1,
                    status := .playing, maxPlayers := 10, currentPlayers := 2,
                    gameType := "g", settings := "s", startedAt := some 0,
                    endedAt := none, expiresAt := none, deletedAt := none }],
        players := [{ id := 1, roomID := 1, userID := 1, isReady := false,
                      position := 0, joinedAt := 0, leftAt := none },
                    { id := 2, roomID := 1, userID := 2, isReady := false,
                      position := 1, joinedAt := 1, leftAt := none }],
        nextRoomID := 2, nextPlayerID := 3 },
    cache := ⟨[]⟩ }

/-- witness for C9: StartGame on the Playing room of `wPlaying` is a Conflict
and the store keeps its prior contents. -/
theorem startGame_rejects_nonwaiting_witness :
    (StartGame ⟨10, 1800⟩ 5 1 wPlaying).1 = .err .conflict ∧
      (StartGame ⟨10, 1800⟩ 5 1 wPlaying).2.store = wPlaying.store :=
  startGame_rejects_nonwaiting ⟨10, 1800⟩ 5 1 wPlaying
    { id := 1, roomCode := "aaaa", name := "r", ownerID := 1, status := .playing,
      maxPlayers := 10, currentPlayers := 2, gameType := "g", settings := "s",
      startedAt := some 0, endedAt := none, expiresAt := none, deletedAt := none }
    (by decide) (by decide) (by decide)

/-! ## C6: LeaveRoom emptying a room -/

/-- C6 (confirmed): a successful LeaveRoom by the remaining member of a room
with occupancy 1 takes occupancy to zero, soft-deletes the room in the store
and removes both cache keys — room hash and member set — and a GetRoom on the
resulting store answers NotFound. -/
theorem leaveRoom_last_member_deletes (cfg : Config) (now uid rid : Nat) (w : World)
    (room : Room) (p : RoomPlayer)
    (hlock : lockHeld w.cache now (leaveRoomLockKey rid) = false)
    (hroom : findRoomByID w.store rid = some room)
    (hocc : room.currentPlayers = 1)
    (hmem : findActivePlayer w.store rid uid = some p) :
    (LeaveRoom cfg now uid rid w).1 = .ok () ∧
      findRoomByID (LeaveRoom cfg now uid rid w).2.store rid = none ∧
      cacheLookupRaw (LeaveRoom cfg now uid rid w).2.cache
        ("room:" ++ toString rid) = none ∧
      cacheLookupRaw (LeaveRoom cfg now uid rid w).2.cache
        ("room:players:" ++ toString rid) = none ∧
      GetRoom (LeaveRoom cfg now uid rid w).2.store rid = .err .notFound := by
  rw [LeaveRoom, AcquireLock_of_free _ _ _ _ hlock]
  simp only [hroom, hocc]
  norm_num
  refine ⟨findRoomByID_deleteRoomStore _ now rid, ?_, ?_, ?_⟩
  · exact cacheLookupRaw_cacheDel_of_none _ _ _
      (cacheLookupRaw_cacheDel_mem _ _ _ (by simp))
  · exact cacheLookupRaw_cacheDel_of_none _ _ _
      (cacheLookupRaw_cacheDel_mem _ _ _ (by simp))
  · rw [GetRoom, findRoomByID_deleteRoomStore _ now rid]

/-- a world with one Waiting room, id 1, occupancy 1, a single active member
with user id 1, and empty cache. -/
def wSolo : World :=
  { store :=
      { rooms := [{ id := 1, roomCode := "aaaa", name := "r", ownerID := 1,
                    status := .waiting, maxPlayers := 10, currentPlayers := 1,
                    gameType := "g", settings := "s", startedAt := none,
                    endedAt := none, expiresAt := none, deletedAt := none }],
        players := [{ id := 1, roomID := 1, userID := 1, isReady := false,
                      position := 0, joinedAt := 0, leftAt := none }],
        nextRoomID := 2, nextPlayerID := 2 },
    cache := ⟨[]⟩ }

/-- witness for C6: user 1 leaving room 1 of `wSolo` succeeds, the room is gone
from the store and cache, and GetRoom reports NotFound. -/
theorem leaveRoom_last_member_deletes_witness :
    (LeaveRoom ⟨10, 1800⟩ 9 1 1 wSolo).1 = .ok () ∧
      findRoomByID (LeaveRoom ⟨10, 1800⟩ 9 1 1 wSolo).2.store 1 = none ∧
      cacheLookupRaw (LeaveRoom ⟨10, 1800⟩ 9 1 1 wSolo).2.cache ("room:" ++ toString 1) = none ∧
      cacheLookupRaw (LeaveRoom ⟨10, 1800⟩ 9 1 1 wSolo).2.cache
        ("room:players:" ++ toString 1) = none ∧
      GetRoom (LeaveRoom ⟨10, 1800⟩ 9 1 1 wSolo).2.store 1 = .err .notFound :=
  leaveRoom_last_member_deletes ⟨10, 1800⟩ 9 1 1 wSolo
    { id := 1, roomCode := "aaaa", name := "r", ownerID := 1, status := .waiting,
      maxPlayers := 10, currentPlayers := 1, gameType := "g", settings := "s",
      startedAt := none, endedAt := none, expiresAt := none, deletedAt := none }
    { id := 1, roomID := 1, userID := 1, isReady := false, position := 0,
      joinedAt := 0, leftAt := none }
    (by decide) (by decide) (by decide) (by decide)

/-! ## C4: JoinRoom -/

/-- C4 (confirmed): with the join lock free, JoinRoom answers NotFound when no
live room carries the code; Conflict when the room is not Waiting, when
occupancy has reached MaxPlayers, or when the user already holds an active
membership; and on success it appends a membership whose seat is the count of
active memberships before the join and raises the room's occupancy by one. -/
theorem joinRoom_functional_spec (cfg : Config) (now uid : Nat) (code : String) (w : World)
    (hlock : lockHeld w.cache now (joinRoomLockKey code) = false) :
    (findRoomByCode w.store code = none →
       (JoinRoom cfg now uid code w).1 = .err .notFound) ∧
    (∀ room, findRoomByCode w.store code = some room → room.status ≠ .waiting →
       (JoinRoom cfg now uid code w).1 = .err .conflict) ∧
    (∀ room, findRoomByCode w.store code = some room → room.status = .waiting →
       room.maxPlayers ≤ room.currentPlayers →
       (JoinRoom cfg now uid code w).1 = .err .conflict) ∧
    (∀ room p, findRoomByCode w.store code = some room → room.status = .waiting →
       room.currentPlayers < room.maxPlayers →
       findActivePlayer w.store room.id uid = some p →
       (JoinRoom cfg now uid code w).1 = .err .conflict) ∧
    (∀ room, findRoomByCode w.store code = some room → room.status = .waiting →
       room.currentPlayers < room.maxPlayers →
       findActivePlayer w.store room.id uid = none →
       (JoinRoom cfg now uid code w).1 =
           .ok { room with currentPlayers := room.currentPlayers + 1 } ∧
         (JoinRoom cfg now uid code w).2.store.players =
           w.store.players ++
             [{ id := w.store.nextPlayerID, roomID := room.id, userID := uid,
                isReady := false,
                position := ((activePlayers w.store room.id).length : Int),
                joinedAt := now, leftAt := none }] ∧
         (∀ r ∈ (JoinRoom cfg now uid code w).2.store.rooms, r.id = room.id →
            r = { room with currentPlayers := room.currentPlayers + 1 })) := by
  refine ⟨?_, ?_, ?_, ?_, ?_⟩
  · intro hfind
    rw [JoinRoom, AcquireLock_of_free _ _ _ _ hlock]
    simp only [hfind]
    rfl
  · intro room hfind hst
    rw [JoinRoom, AcquireLock_of_free _ _ _ _ hlock]
    simp only [hfind, if_pos hst]
    rfl
  · intro room hfind hst hcap
    rw [JoinRoom, AcquireLock_of_free _ _ _ _ hlock]
    simp only [hfind, if_neg (not_not_intro hst), if_pos hcap]
    rfl
  · intro room p hfind hst hcap hap
    rw [JoinRoom, AcquireLock_of_free _ _ _ _ hlock]
    simp only [hfind, if_neg (not_not_intro hst), if_neg (not_le.mpr hcap), hap]
    rfl
  · intro room hfind hst hcap hap
    rw [JoinRoom, AcquireLock_of_free _ _ _ _ hlock]
    simp only [hfind, if_neg (not_not_intro hst), if_neg (not_le.mpr hcap), hap]
    exact ⟨rfl, rfl, updateRoom_rooms_id _ _⟩

/-- a world with one Waiting room with code "bbbb", id 1, capacity 2 and one
member (user 1), and empty cache. -/
def wOpen : World :=
  { store :=
      { rooms := [{ id := 1, roomCode := "bbbb", name := "r", ownerID := 1,
                    status := .waiting, maxPlayers := 2, currentPlayers := 1,
                    gameType := "g", settings := "s", startedAt := none,
                    endedAt := none, expiresAt := none, deletedAt := none }],
        players := [{ id := 1, roomID := 1, userID := 1, isReady := false,
                      position := 0, joinedAt := 0, leftAt := none }],
        nextRoomID := 2, nextPlayerID := 2 },
    cache := ⟨[]⟩ }

/-- witness for C4: joining `wOpen` with a missing code answers NotFound, and
user 2 joining room "bbbb" succeeds with seat 1 and occupancy 2. -/
theorem joinRoom_functional_spec_witness :
    (JoinRoom ⟨10, 1800⟩ 3 2 "zzzz" wOpen).1 = .err .notFound ∧
    (JoinRoom ⟨10, 1800⟩ 3 2 "bbbb" wOpen).1 =
      .ok { id := 1, roomCode := "bbbb", name := "r", ownerID := 1,
            status := .waiting, maxPlayers := 2, currentPlayers := 2,
            gameType := "g", settings := "s", startedAt := none,
            endedAt := none, expiresAt := none, deletedAt := none } ∧
    (JoinRoom ⟨10, 1800⟩ 3 2 "bbbb" wOpen).2.store.players =
      wOpen.store.players ++
        [{ id := 2, roomID := 1, userID := 2, isReady := false, position := 1,
           joinedAt := 3, leftAt := none }] := by
  have h1 := (joinRoom_functional_spec ⟨10, 1800⟩ 3 2 "zzzz" wOpen (by decide)).1 (by decide)
  have h5 := (joinRoom_functional_spec ⟨10, 1800⟩ 3 2 "bbbb" wOpen (by decide)).2.2.2.2
    { id := 1, roomCode := "bbbb", name := "r", ownerID := 1, status := .waiting,
      maxPlayers := 2, currentPlayers := 1, gameType := "g", settings := "s",
      startedAt := none, endedAt := none, expiresAt := none, deletedAt := none }
    (by decide) (by decide) (by decide) (by decide)
  exact ⟨h1, h5.1, by rw [h5.2.1]; decide⟩

/-! ## C1: the occupancy invariant -/

/-- a world with one Waiting room, id 1, occupancy 2, two active members
(users 1 and 2), and empty cache: the occupancy invariant holds. -/
def wTwo : World :=
  { store :=
      { rooms := [{ id := 1, roomCode := "aaaa", name := "r", ownerID := 1,
                    status := .waiting, maxPlayers := 10, currentPlayers := 2,
                    gameType := "g", settings := "s", startedAt := none,
                    endedAt := none, expiresAt := none, deletedAt := none }],
        players := [{ id := 1, roomID := 1, userID := 1, isReady := false,
                      position := 0, joinedAt := 0, leftAt := none },
                    { id := 2, roomID := 1, userID := 2, isReady := false,
                      position := 1, joinedAt := 1, leftAt := none }],
        nextRoomID := 2, nextPlayerID := 3 },
    cache := ⟨[]⟩ }

/-- C1 (code bug): the occupancy invariant is not preserved by LeaveRoom.  On
`wTwo`, where occupancy 2 equals the two active memberships, a LeaveRoom by
user 99 — who has no membership at all — succeeds: the repository UPDATE
matches no row (and carries no left_at IS NULL guard), the service never
checks membership, and occupancy is decremented to 1 while both memberships
stay active, so occupancy no longer equals the active-membership count. -/
theorem leaveRoom_breaks_occupancy_invariant :
    occupancyInvB wTwo.store = true ∧
      (LeaveRoom ⟨10, 1800⟩ 7 99 1 wTwo).1 = .ok () ∧
      activePlayers (LeaveRoom ⟨10, 1800⟩ 7 99 1 wTwo).2.store 1 =
        activePlayers wTwo.store 1 ∧
      occupancyInvB (LeaveRoom ⟨10, 1800⟩ 7 99 1 wTwo).2.store = false := by
  decide

/-! ## C3: CreateRoom atomicity -/

theorem findRoomByID_update_append (rooms : List Room) (room0 room1 : Room)
    (hid : room0.id = room1.id) (hlive : room1.deletedAt = none) :
    ((rooms ++ [room0]).map (fun r => if r.id == room1.id then room1 else r)).find?
      (fun r => r.id == room1.id && r.deletedAt.isNone) = some room1 := by
  induction rooms with
  | nil =>
    have hc : (room0.id == room1.id) = true := by simp [hid]
    simp [List.find?, hc, hlive]
  | cons x xs ih =>
    by_cases h : (x.id == room1.id) = true
    · simp [List.find?, h, hlive]
    · simp only [List.cons_append, List.map_cons, if_neg h]
      rw [List.find?_cons_of_neg _ (by simp [h])]
      exact ih

/-- a fresh empty world: empty store with counters at 1, empty cache. -/
def wNew : World := ⟨⟨[], [], 1, 1⟩, ⟨[]⟩⟩

/-- counterexample to C3: when the cache-mirror write fails after the store
insert (memberInsertOk true, mirrorOk false), CreateRoom still reports
success, the room survives in the durable store, and no cache mirror entry
exists — the room is not deleted as the claim demands. -/
theorem createRoom_mirror_failure_keeps_room :
    (CreateRoom ⟨10, 1800⟩ 0 "cdcd" 7 ⟨"n", "g", "s"⟩ true false wNew).1 =
      .ok { id := 1, roomCode := "cdcd", name := "n", ownerID := 7,
            status := .waiting, maxPlayers := 10, currentPlayers := 1,
            gameType := "g", settings := "s", startedAt := none, endedAt := none,
            expiresAt := some 1800, deletedAt := none } ∧
      findRoomByID (CreateRoom ⟨10, 1800⟩ 0 "cdcd" 7 ⟨"n", "g", "s"⟩ true false wNew).2.store 1 =
        some { id := 1, roomCode := "cdcd", name := "n", ownerID := 7,
               status := .waiting, maxPlayers := 10, currentPlayers := 1,
               gameType := "g", settings := "s", startedAt := none, endedAt := none,
               expiresAt := some 1800, deletedAt := none } ∧
      cacheLookupRaw
        (CreateRoom ⟨10, 1800⟩ 0 "cdcd" 7 ⟨"n", "g", "s"⟩ true false wNew).2.cache
        ("room:" ++ toString 1) = none := by
  decide

/-- C3 as amended (proved): on success — including a failed cache mirror — the
durable store holds the room with status Waiting and occupancy 1 plus the
owner membership at seat 0, and the mirror hash is present exactly when the
mirror write succeeded (on mirror failure the call still succeeds, the cache
is untouched and the room survives); only a failed owner-membership insert
rolls the room back, deleting it from the store and reporting Internal with
the cache untouched. -/
theorem createRoom_amended (cfg : Config) (now : Nat) (code : String) (ownerID : Nat)
    (req : CreateRoomRequest) (mirrorOk : Bool) (w : World) :
    ((CreateRoom cfg now code ownerID req true mirrorOk w).1 =
       .ok { id := w.store.nextRoomID, roomCode := code, name := req.name,
             ownerID := ownerID, status := .waiting, maxPlayers := cfg.maxPlayers,
             currentPlayers := 1, gameType := req.gameType, settings := req.settings,
             startedAt := none, endedAt := none,
             expiresAt := some (now + cfg.defaultTimeout), deletedAt := none } ∧
     findRoomByID (CreateRoom cfg now code ownerID req true mirrorOk w).2.store
         w.store.nextRoomID =
       some { id := w.store.nextRoomID, roomCode := code, name := req.name,
              ownerID := ownerID, status := .waiting, maxPlayers := cfg.maxPlayers,
              currentPlayers := 1, gameType := req.gameType, settings := req.settings,
              startedAt := none, endedAt := none,
              expiresAt := some (now + cfg.defaultTimeout), deletedAt := none } ∧
     (CreateRoom cfg now code ownerID req true mirrorOk w).2.store.players =
       w.store.players ++
         [{ id := w.store.nextPlayerID, roomID := w.store.nextRoomID,
            userID := ownerID, isReady := false, position := 0,
            joinedAt := now, leftAt := none }] ∧
     (mirrorOk = true →
        (cacheLookupRaw (CreateRoom cfg now code ownerID req true mirrorOk w).2.cache
          ("room:" ++ toString w.store.nextRoomID)).isSome = true) ∧
     (mirrorOk = false →
        (CreateRoom cfg now code ownerID req true mirrorOk w).2.cache = w.cache)) ∧
    ((CreateRoom cfg now code ownerID req false mirrorOk w).1 = .err .internal ∧
     findRoomByID (CreateRoom cfg now code ownerID req false mirrorOk w).2.store
       w.store.nextRoomID = none ∧
     (CreateRoom cfg now code ownerID req false mirrorOk w).2.cache = w.cache) := by
  refine ⟨⟨rfl, ?_, rfl, ?_, ?_⟩, rfl, ?_, rfl⟩
  · simp only [CreateRoom, findRoomByID, updateRoom, ite_true]
    exact findRoomByID_update_append w.store.rooms
      { id := w.store.nextRoomID, roomCode := code, name := req.name, ownerID := ownerID,
        status := .waiting, maxPlayers := cfg.maxPlayers, currentPlayers := 0,
        gameType := req.gameType, settings := req.settings, startedAt := none,
        endedAt := none, expiresAt := some (now + cfg.defaultTimeout), deletedAt := none }
      { id := w.store.nextRoomID, roomCode := code, name := req.name, ownerID := ownerID,
        status := .waiting, maxPlayers := cfg.maxPlayers, currentPlayers := 1,
        gameType := req.gameType, settings := req.settings, startedAt := none,
        endedAt := none, expiresAt := some (now + cfg.defaultTimeout), deletedAt := none }
      rfl rfl
  · intro h
    subst h
    exact cacheLookupRaw_HSet_isSome _ _ _ _
  · intro h
    subst h
    rfl
  · exact findRoomByID_deleteRoomStore _ now w.store.nextRoomID

/-- witness for C3 as amended, at the fresh world `wNew`: a successful create
with a working mirror leaves the mirror hash present, and a create whose
membership insert fails reports Internal and leaves no live room. -/
theorem createRoom_amended_witness :
    (cacheLookupRaw
        (CreateRoom ⟨10, 1800⟩ 0 "cdcd" 7 ⟨"n", "g", "s"⟩ true true wNew).2.cache
        ("room:" ++ toString wNew.store.nextRoomID)).isSome = true ∧
      (CreateRoom ⟨10, 1800⟩ 0 "cdcd" 7 ⟨"n", "g", "s"⟩ false true wNew).1 =
        .err .internal ∧
      findRoomByID (CreateRoom ⟨10, 1800⟩ 0 "cdcd" 7 ⟨"n", "g", "s"⟩ false true wNew).2.store
        wNew.store.nextRoomID = none :=
  ⟨(createRoom_amended ⟨10, 1800⟩ 0 "cdcd" 7 ⟨"n", "g", "s"⟩ true wNew).1.2.2.2.1 rfl,
   (createRoom_amended ⟨10, 1800⟩ 0 "cdcd" 7 ⟨"n", "g", "s"⟩ true wNew).2.1,
   (createRoom_amended ⟨10, 1800⟩ 0 "cdcd" 7 ⟨"n", "g", "s"⟩ true wNew).2.2.1⟩

/-! ## C2: lock keys and lock discipline -/

/-- a world with one Waiting room, id 65, code "abcd", capacity 4, occupancy 2
(users 1, 2), where the lock key LeaveRoom would use for room 65 is currently
held and unexpired. -/
def wC2 : World :=
  { store :=
      { rooms := [{ id := 65, roomCode := "abcd", name := "r", ownerID := 1,
                    status := .waiting, maxPlayers := 4, currentPlayers := 2,
                    gameType := "g", settings := "s", startedAt := none,
                    endedAt := none, expiresAt := none, deletedAt := none }],
        players := [{ id := 1, roomID := 65, userID := 1, isReady := false,
                      position := 0, joinedAt := 0, leftAt := none },
                    { id := 2, roomID := 65, userID := 2, isReady := false,
                      position := 1, joinedAt := 1, leftAt := none }],
        nextRoomID := 66, nextPlayerID := 3 },
    cache := ⟨[("lock:" ++ leaveRoomLockKey 65, ⟨.str "1", some 100⟩)]⟩ }

/-- counterexample to C2: the operations do not share one lock key per room.
For room 65 (code "abcd"), JoinRoom keys its lock by the room code while
LeaveRoom keys it by string(rune(65)) = "A" and StartGame/EndGame use a
"game:lock:" prefix, three distinct keys; with LeaveRoom's key held, both
JoinRoom and StartGame on the very same room still proceed and mutate it. -/
theorem room_ops_use_distinct_lock_keys :
    lockHeld wC2.cache 0 (leaveRoomLockKey 65) = true ∧
      joinRoomLockKey "abcd" ≠ leaveRoomLockKey 65 ∧
      leaveRoomLockKey 65 ≠ startGameLockKey 65 ∧
      joinRoomLockKey "abcd" ≠ startGameLockKey 65 ∧
      (JoinRoom ⟨10, 1800⟩ 0 3 "abcd" wC2).1 =
        .ok { id := 65, roomCode := "abcd", name := "r", ownerID := 1,
              status := .waiting, maxPlayers := 4, currentPlayers := 3,
              gameType := "g", settings := "s", startedAt := none,
              endedAt := none, expiresAt := none, deletedAt := none } ∧
      (StartGame ⟨10, 1800⟩ 0 65 wC2).1 = .ok () := by
  decide

/-- C2 as amended (proved): every one of JoinRoom, LeaveRoom, StartGame and
EndGame acquires an advisory lock before its read-modify-write and releases
it on every exit path — if the operation's key is held it aborts with
Conflict leaving the world unchanged, and if it is free the key is absent
from the cache again once the operation returns; but the keys are per
operation, not per room: JoinRoom locks "room:lock:" ++ code, LeaveRoom
"room:lock:" ++ string(rune(id)), and StartGame/EndGame share
"game:lock:" ++ string(rune(id)), so mutual exclusion holds only between
operations that happen to build the same key, not across all four. -/
theorem lock_discipline_amended (cfg : Config) (now uid rid : Nat)
    (code results : String) (w : World) :
    (lockHeld w.cache now (joinRoomLockKey code) = true →
       JoinRoom cfg now uid code w = (.err .conflict, w)) ∧
    (lockHeld w.cache now (joinRoomLockKey code) = false →
       cacheLookupRaw (JoinRoom cfg now uid code w).2.cache
         ("lock:" ++ joinRoomLockKey code) = none) ∧
    (lockHeld w.cache now (leaveRoomLockKey rid) = true →
       LeaveRoom cfg now uid rid w = (.err .conflict, w)) ∧
    (lockHeld w.cache now (leaveRoomLockKey rid) = false →
       cacheLookupRaw (LeaveRoom cfg now uid rid w).2.cache
         ("lock:" ++ leaveRoomLockKey rid) = none) ∧
    (lockHeld w.cache now (startGameLockKey rid) = true →
       StartGame cfg now rid w = (.err .conflict, w)) ∧
    (lockHeld w.cache now (startGameLockKey rid) = false →
       cacheLookupRaw (StartGame cfg now rid w).2.cache
         ("lock:" ++ startGameLockKey rid) = none) ∧
    (lockHeld w.cache now (endGameLockKey rid) = true →
       EndGame cfg now rid results w = (.err .conflict, w)) ∧
    (lockHeld w.cache now (endGameLockKey rid) = false →
       cacheLookupRaw (EndGame cfg now rid results w).2.cache
         ("lock:" ++ endGameLockKey rid) = none) ∧
    (∀ r : Nat, startGameLockKey r = endGameLockKey r) := by
  refine ⟨?_, ?_, ?_, ?_, ?_, ?_, ?_, ?_, fun r => rfl⟩
  · intro h
    rw [JoinRoom, AcquireLock_of_held _ _ _ _ h]
    rfl
  · intro h
    simp only [JoinRoom, AcquireLock_of_free _ _ _ _ h]
    rw [if_pos trivial]
    repeat' split
    all_goals exact cacheLookupRaw_cacheDel_mem _ _ _ (by simp)
  · intro h
    rw [LeaveRoom, AcquireLock_of_held _ _ _ _ h]
    rfl
  · intro h
    simp only [LeaveRoom, AcquireLock_of_free _ _ _ _ h]
    rw [if_pos trivial]
    repeat' split
    all_goals exact cacheLookupRaw_cacheDel_mem _ _ _ (by simp)
  · intro h
    rw [StartGame, AcquireLock_of_held _ _ _ _ h]
    rfl
  · intro h
    simp only [StartGame, AcquireLock_of_free _ _ _ _ h]
    rw [if_pos trivial]
    repeat' split
    all_goals exact cacheLookupRaw_cacheDel_mem _ _ _ (by simp)
  · intro h
    rw [EndGame, AcquireLock_of_held _ _ _ _ h]
    rfl
  · intro h
    simp only [EndGame, AcquireLock_of_free _ _ _ _ h]
    rw [if_pos trivial]
    repeat' split
    all_goals exact cacheLookupRaw_cacheDel_mem _ _ _ (by simp)

/-- witness for C2 as amended, on `wC2`: LeaveRoom finds its key held and
aborts with Conflict leaving the world unchanged, while StartGame, whose key
is free, runs and leaves its own key released afterwards. -/
theorem lock_discipline_amended_witness :
    LeaveRoom ⟨10, 1800⟩ 0 1 65 wC2 = (.err .conflict, wC2) ∧
      cacheLookupRaw (StartGame ⟨10, 1800⟩ 0 65 wC2).2.cache
        ("lock:" ++ startGameLockKey 65) = none :=
  ⟨(lock_discipline_amended ⟨10, 1800⟩ 0 1 65 "x" "res" wC2).2.2.1 (by decide),
   (lock_discipline_amended ⟨10, 1800⟩ 0 1 65 "x" "res" wC2).2.2.2.2.2.1 (by decide)⟩

/-! ## C5: status transitions -/

theorem pairwise_id_unique (l : List Room)
    (hpw : l.Pairwise (fun a b => a.id ≠ b.id)) :
    ∀ a ∈ l, ∀ b ∈ l, a.id = b.id → a = b := by
  induction l with
  | nil => intro a ha; exact absurd ha (List.not_mem_nil a)
  | cons x xs ih =>
    intro a ha b hb hid
    rcases List.mem_cons.mp ha with rfl | ha2
    · rcases List.mem_cons.mp hb with rfl | hb2
      · rfl
      · exact absurd hid ((List.pairwise_cons.mp hpw).1 b hb2)
    · rcases List.mem_cons.mp hb with rfl | hb2
      · exact absurd hid.symm ((List.pairwise_cons.mp hpw).1 a ha2)
      · exact ih (List.pairwise_cons.mp hpw).2 a ha2 b hb2 hid

theorem forall2_map_pointwise {R : Room → Room → Prop} (l : List Room) (f : Room → Room)
    (h : ∀ a ∈ l, R a (f a)) : List.Forall₂ R l (l.map f) := by
  induction l with
  | nil => exact List.Forall₂.nil
  | cons x xs ih =>
    rw [List.map_cons]
    exact List.Forall₂.cons (h x (List.mem_cons_self x xs))
      (ih (fun a ha => h a (List.mem_cons_of_mem x ha)))

theorem forall2_refl_of {R : Room → Room → Prop} (l : List Room)
    (h : ∀ a ∈ l, R a a) : List.Forall₂ R l l :=
  List.forall₂_same.mpr h

theorem status_of_deleteMap (now rid : Nat) (r : Room) :
    (if (r.id == rid && r.deletedAt.isNone) = true
      then { r with deletedAt := some now } else r).status = r.status := by
  split <;> rfl

/-- a world with one Cancelled room, id 1, and empty cache. -/
def wCancelled : World :=
  { store :=
      { rooms := [{ id := 1, roomCode := "aaaa", name := "r", ownerID := 1,
                    status := .cancelled, maxPlayers := 10, currentPlayers := 2,
                    gameType := "g", settings := "s", startedAt := none,
                    endedAt := none, expiresAt := none, deletedAt := none }],
        players := [{ id := 1, roomID := 1, userID := 1, isReady := false,
                      position := 0, joinedAt := 0, leftAt := none },
                    { id := 2, roomID := 1, userID := 2, isReady := false,
                      position := 1, joinedAt := 1, leftAt := none }],
        nextRoomID := 2, nextPlayerID := 3 },
    cache := ⟨[]⟩ }

/-- counterexample to C5: EndGame never checks the room's status, so it moves
the Cancelled — terminal — room of `wCancelled` to Finished and reports
success, leaving the terminal state. -/
theorem endGame_moves_cancelled_to_finished :
    findRoomByID wCancelled.store 1 =
      some { id := 1, roomCode := "aaaa", name := "r", ownerID := 1,
             status := .cancelled, maxPlayers := 10, currentPlayers := 2,
             gameType := "g", settings := "s", startedAt := none,
             endedAt := none, expiresAt := none, deletedAt := none } ∧
      (EndGame ⟨10, 1800⟩ 5 1 "res" wCancelled).1 = .ok () ∧
      findRoomByID (EndGame ⟨10, 1800⟩ 5 1 "res" wCancelled).2.store 1 =
        some { id := 1, roomCode := "aaaa", name := "r", ownerID := 1,
               status := .finished, maxPlayers := 10, currentPlayers := 2,
               gameType := "g", settings := "s", startedAt := none,
               endedAt := some 5, expiresAt := none, deletedAt := none } := by
  decide

/-- C5 as amended (proved): over a store with pairwise-distinct room ids,
JoinRoom and LeaveRoom never change any room's status; StartGame changes a
status only from Waiting to Playing; but EndGame performs no status check, so
it may set any room it finds — including a Cancelled or Waiting one — to
Finished: every status change an operation makes is forward except that
EndGame can leave the terminal state Cancelled for Finished. -/
theorem status_transitions_amended (cfg : Config) (now uid rid : Nat)
    (code results : String) (w : World)
    (hpw : w.store.rooms.Pairwise (fun a b => a.id ≠ b.id)) :
    List.Forall₂ (fun a b => b.status = a.status) w.store.rooms
      (JoinRoom cfg now uid code w).2.store.rooms ∧
    List.Forall₂ (fun a b => b.status = a.status) w.store.rooms
      (LeaveRoom cfg now uid rid w).2.store.rooms ∧
    List.Forall₂ (fun a b => b.status = a.status ∨
        (a.status = .waiting ∧ b.status = .playing)) w.store.rooms
      (StartGame cfg now rid w).2.store.rooms ∧
    List.Forall₂ (fun a b => b.status = a.status ∨ b.status = .finished)
      w.store.rooms (EndGame cfg now rid results w).2.store.rooms := by
  refine ⟨?_, ?_, ?_, ?_⟩
  · have hrefl : List.Forall₂ (fun a b : Room => b.status = a.status)
        w.store.rooms w.store.rooms := forall2_refl_of _ (fun a ha => rfl)
    simp only [JoinRoom, updateRoom]
    split
    · split
      · exact hrefl
      · rename_i room heq
        split
        · exact hrefl
        · split
          · exact hrefl
          · split
            · exact hrefl
            · refine forall2_map_pointwise _ _ (fun a ha => ?_)
              split
              · rename_i hc
                have haroom : a = room := pairwise_id_unique _ hpw a ha room
                  (List.mem_of_find?_eq_some heq) (by simpa using hc)
                rw [haroom]
              · rfl
    · exact hrefl
  · have hrefl : List.Forall₂ (fun a b : Room => b.status = a.status)
        w.store.rooms w.store.rooms := forall2_refl_of _ (fun a ha => rfl)
    simp only [LeaveRoom, updateRoom, deleteRoomStore, playersLeaveRoom]
    split
    · split
      · exact hrefl
      · rename_i room heq
        have hpoint_upd : ∀ (room1 : Room), room1.id = room.id →
            room1.status = room.status → ∀ a ∈ w.store.rooms,
            (if (a.id == room1.id) = true then room1 else a).status = a.status := by
          intro room1 hid1 hst1 a ha
          split
          · rename_i hc
            have haroom : a = room := pairwise_id_unique _ hpw a ha room
              (List.mem_of_find?_eq_some heq) (by simp at hc; rw [hc, hid1])
            rw [haroom, hst1]
          · rfl
        by_cases h0 : (0 : Int) < room.currentPlayers
        · simp only [if_pos h0]
          split
          · rw [List.map_map]
            refine forall2_map_pointwise _ _ (fun a ha => ?_)
            simp only [Function.comp_apply]
            rw [status_of_deleteMap]
            exact hpoint_upd { room with currentPlayers := room.currentPlayers - 1 }
              rfl rfl a ha
          · refine forall2_map_pointwise _ _ (fun a ha => ?_)
            exact hpoint_upd { room with currentPlayers := room.currentPlayers - 1 }
              rfl rfl a ha
        · simp only [if_neg h0]
          split
          · exact forall2_map_pointwise _ _ (fun a ha => status_of_deleteMap now rid a)
          · exact hrefl
    · exact hrefl
  · have hrefl : List.Forall₂ (fun a b : Room => b.status = a.status ∨
        (a.status = .waiting ∧ b.status = .playing)) w.store.rooms w.store.rooms :=
      forall2_refl_of _ (fun a ha => Or.inl rfl)
    simp only [StartGame, updateRoom]
    split
    · split
      · exact hrefl
      · rename_i room heq
        split
        · exact hrefl
        · rename_i hns
          refine forall2_map_pointwise _ _ (fun a ha => ?_)
          split
          · rename_i hc
            have haroom : a = room := pairwise_id_unique _ hpw a ha room
              (List.mem_of_find?_eq_some heq) (by simpa using hc)
            rw [haroom]
            exact Or.inr ⟨not_not.mp hns, rfl⟩
          · exact Or.inl rfl
    · exact hrefl
  · have hrefl : List.Forall₂ (fun a b : Room => b.status = a.status ∨
        b.status = .finished) w.store.rooms w.store.rooms :=
      forall2_refl_of _ (fun a ha => Or.inl rfl)
    simp only [EndGame, updateRoom]
    split
    · split
      · exact hrefl
      · refine forall2_map_pointwise _ _ (fun a ha => ?_)
        split
        · exact Or.inr rfl
        · exact Or.inl rfl
    · exact hrefl

/-- witness for C5 as amended, on the one-room world `wPlaying` (distinct ids
hold trivially): all four operations satisfy the stated status relations. -/
theorem status_transitions_amended_witness :
    List.Forall₂ (fun a b => b.status = a.status) wPlaying.store.rooms
        (JoinRoom ⟨10, 1800⟩ 0 3 "aaaa" wPlaying).2.store.rooms ∧
      List.Forall₂ (fun a b => b.status = a.status) wPlaying.store.rooms
        (LeaveRoom ⟨10, 1800⟩ 0 3 1 wPlaying).2.store.rooms ∧
      List.Forall₂ (fun a b => b.status = a.status ∨
          (a.status = .waiting ∧ b.status = .playing)) wPlaying.store.rooms
        (StartGame ⟨10, 1800⟩ 0 1 wPlaying).2.store.rooms ∧
      List.Forall₂ (fun a b => b.status = a.status ∨ b.status = .finished)
        wPlaying.store.rooms (EndGame ⟨10, 1800⟩ 0 1 "res" wPlaying).2.store.rooms :=
  status_transitions_amended ⟨10, 1800⟩ 0 3 1 "aaaa" "res" wPlaying (by simp [wPlaying])

end GameServices
